import Mathlib

/-!
Verification of the type-hint parser, validator and coercer of
`hparams/localconfig/utils.py`, together with the scalar-classifier
predicates (`is_bool`, `to_bool`, `is_config`) that they use.

Python strings are modelled as `List Char`; Python values as the inductive
`PyVal`; the Python exceptions raised by the module as the inductive
`TypeErr`, one constructor per raise site, carrying the data interpolated
into the exception message.  Each definition is a direct translation of the
corresponding Python function.
-/

namespace HParams

/-- Python strings, modelled as lists of characters. -/
abbrev PyStr := List Char

/-- The ASCII whitespace characters recognised by Python's `str.strip` and
by the regex class `\s` (the non-ASCII whitespace Python additionally
accepts plays no role in this development). -/
def pyIsSpace (c : Char) : Bool :=
  c = ' ' || c = '\t' || c = '\n' || c = '\r' || c = '\x0b' || c = '\x0c'

/-- Leading-whitespace removal (left half of Python's `str.strip`). -/
def pyStripLeft (s : PyStr) : PyStr := s.dropWhile pyIsSpace

/-- Python's `str.strip()`: remove leading and trailing whitespace. -/
def pyStrip (s : PyStr) : PyStr :=
  ((pyStripLeft s).reverse.dropWhile pyIsSpace).reverse

/-- Python's `str.lower()` (ASCII case folding; the hint vocabulary is
ASCII). -/
def pyLower (s : PyStr) : PyStr := s.map Char.toLower

/-- Python's `str.split(sep)` for a one-character separator: `"".split`
yields `[""]`, and empty fragments are kept. -/
def pySplit (sep : Char) : PyStr → List PyStr
  | [] => [[]]
  | c :: rest =>
    if c = sep then [] :: pySplit sep rest
    else
      match pySplit sep rest with
      | [] => [[c]]
      | g :: gs => (c :: g) :: gs

/-- Python's `str.endswith` for a one-character suffix. -/
def pyEndsWith (s : PyStr) (c : Char) : Bool := s.getLast? == some c

/-- The closed enumeration of Python types appearing in `TYPE_MAP`:
`int, float, str, bool, list, dict, type(None)`. -/
inductive TypeKind where
  | int | float | str | bool | list | dict | noneType
deriving DecidableEq, Repr

/-- Model of `TYPE_MAP.get(name)`: the supported type names, mapped to their types.
The source dict has the eight keys below; lookup is always performed on a
lower-cased name, so the `"None"` entry is shadowed by `"none"`. -/
def typeMapGet (s : PyStr) : Option TypeKind :=
  if s = "int".data then some .int
  else if s = "float".data then some .float
  else if s = "str".data then some .str
  else if s = "bool".data then some .bool
  else if s = "list".data then some .list
  else if s = "dict".data then some .dict
  else if s = "none".data then some .noneType
  else if s = "None".data then some .noneType
  else none

/-- Python runtime values, restricted to the kinds the module manipulates.
Floats are modelled as exact rationals: every float literal or conversion
appearing in this development is exactly representable, and no claim
depends on binary64 rounding. -/
inductive PyVal where
  | none
  | bool (b : Bool)
  | int (n : Int)
  | float (x : Rat)
  | str (s : PyStr)
  | list (items : List PyVal)
  | dict (entries : List (PyVal × PyVal))

/-- Python's `type(value)` as a `TypeKind` (Python `bool` is its own type even
though it subclasses `int`). -/
def runtimeKind : PyVal → TypeKind
  | .none => .noneType
  | .bool _ => .bool
  | .int _ => .int
  | .float _ => .float
  | .str _ => .str
  | .list _ => .list
  | .dict _ => .dict

/-- Python's `isinstance(v, k)` for the kinds of `TYPE_MAP`: exact kind
match, plus `bool` being a subclass of `int`, plus `None` being an
instance of `NoneType`. -/
def isinstanceKind (v : PyVal) (k : TypeKind) : Bool :=
  match v, k with
  | .bool _, .bool => true
  | .bool _, .int => true
  | .int _, .int => true
  | .float _, .float => true
  | .str _, .str => true
  | .list _, .list => true
  | .dict _, .dict => true
  | .none, .noneType => true
  | _, _ => false

/-- Test modelling `value is None`. -/
def PyVal.isNone : PyVal → Bool
  | .none => true
  | _ => false

/-- Test modelling `isinstance(value, str)`. -/
def PyVal.isStr : PyVal → Bool
  | .str _ => true
  | _ => false

/-- The character payload of a string value (callers guard with
`isStr`). -/
def strPayload : PyVal → PyStr
  | .str s => s
  | _ => []

/-- The tuple `(base_types, is_optional, inner_types)` returned by
`parse_type_hint`. -/
structure TypeDescriptor where
  base_types : List TypeKind
  is_optional : Bool
  inner_types : Option (List TypeKind)
deriving DecidableEq, Repr

/-- The `TypeError`s raised by the module, one constructor per raise site,
carrying the data interpolated into the message. `indexError` stands for
the `IndexError` Python would raise on an out-of-range subscript
(`inner_types[0]`, `base_types[0]`); it is unreachable for parser
outputs. -/
inductive TypeErr where
  | unknownType (token : PyStr)
  | unknownInnerType (token : PyStr)
  | malformedUnion (typeStr : PyStr)
  | noneNotOptional (typeHint : PyStr)
  | typeMismatch (expected : List TypeKind) (actual : TypeKind) (value : PyVal)
  | listItemMismatch (index : Nat) (expected : TypeKind) (actual : TypeKind) (item : PyVal)
  | dictKeyMismatch (expected : TypeKind) (actual : TypeKind) (key : PyVal)
  | dictValueMismatch (key : PyVal) (expected : TypeKind) (actual : TypeKind) (value : PyVal)
  | cannotCoerceNone (typeHint : PyStr)
  | coercionFailed (sourceKind : TypeKind) (typeHint : PyStr) (reason : String)
  | indexError

/-- The `for part in parts` loop of the pipe-union branch of
`parse_type_hint`: accumulate `base_types` and `is_optional` across the
parts, then reject an all-`None` union. -/
def unionFold (typeStr : PyStr) :
    List PyStr → List TypeKind → Bool → Except TypeErr TypeDescriptor
  | [], baseTypes, isOptional =>
    if baseTypes = [] then .error (.malformedUnion typeStr)
    else .ok ⟨baseTypes, isOptional, Option.none⟩
  | part :: rest, baseTypes, isOptional =>
    if pyLower part = "none".data then unionFold typeStr rest baseTypes true
    else
      match typeMapGet (pyLower part) with
      | Option.none => .error (.unknownType part)
      | some t => unionFold typeStr rest (baseTypes ++ [t]) isOptional

/-- Resolution of the inner segments of a generic hint.  The source first
maps `TYPE_MAP.get` over all trimmed segments and then scans the zipped
lists for the first unresolved one; both produce the first unknown segment
in order, which is what this recursion returns. -/
def resolveInner : List PyStr → Except TypeErr (List TypeKind)
  | [] => .ok []
  | p :: ps =>
    match typeMapGet (pyLower p) with
    | Option.none => .error (.unknownInnerType p)
    | some t =>
      match resolveInner ps with
      | .error e => .error e
      | .ok ts => .ok (t :: ts)

/-- The generic-container and simple-name branches of `parse_type_hint`,
reached after the union check, on a string already stripped of any
`Optional[...]` wrapper (`is_optional` records whether one was present). -/
def parseNonUnion (typeStr : PyStr) (isOptional : Bool) :
    Except TypeErr TypeDescriptor :=
  if typeStr.contains '[' then
    let baseName := typeStr.takeWhile (fun c => c ≠ '[')
    let innerStr := pyStrip ((typeStr.drop (baseName.length + 1)).dropLast)
    match typeMapGet (pyLower baseName) with
    | Option.none => .error (.unknownType baseName)
    | some baseType =>
      match resolveInner ((pySplit ',' innerStr).map pyStrip) with
      | .error e => .error e
      | .ok inner => .ok ⟨[baseType], isOptional, some inner⟩
  else
    match typeMapGet (pyLower typeStr) with
    | Option.none => .error (.unknownType typeStr)
    | some baseType => .ok ⟨[baseType], isOptional, Option.none⟩

/-- Model of `parse_type_hint(type_str)`: strip, then try in order the pipe-union
branch, the `Optional[...]` wrapper (a single non-recursive strip of the
wrapper, `type_str[9:-1]`), the generic-container branch, and the
simple-name branch. -/
def parse_type_hint (s : PyStr) : Except TypeErr TypeDescriptor :=
  let typeStr := pyStrip s
  if typeStr.contains '|' then
    unionFold typeStr ((pySplit '|' typeStr).map pyStrip) [] false
  else
    if "Optional[".data.isPrefixOf typeStr && pyEndsWith typeStr ']' then
      parseNonUnion (pyStrip ((typeStr.drop 9).dropLast)) true
    else
      parseNonUnion typeStr false

/-- The scan of `base_types` inside `validate_type`: a base type matches
when it is `float` and the value is an `int` or `float` instance (the
int-to-float widening), or when the value is an instance of it. -/
def baseMatches (value : PyVal) (baseType : TypeKind) : Bool :=
  if baseType == TypeKind.float
      && (isinstanceKind value .int || isinstanceKind value .float) then
    true
  else isinstanceKind value baseType

/-- The `for i, item in enumerate(value)` loop of the list-element check:
an item must be an instance of `item_type`, except that `int` items are
allowed when `item_type` is `float`. -/
def checkListItems (itemType : TypeKind) : Nat → List PyVal → Except TypeErr Unit
  | _, [] => .ok ()
  | i, item :: rest =>
    if !isinstanceKind item itemType then
      if itemType == TypeKind.float && isinstanceKind item .int then
        checkListItems itemType (i + 1) rest
      else .error (.listItemMismatch i itemType (runtimeKind item) item)
    else checkListItems itemType (i + 1) rest

/-- The list-inner check of `validate_type`: runs only when `inner_types`
is present and the matched base type is `list`; `inner_types[0]` on an
empty tuple would raise `IndexError` (unreachable for parser outputs). -/
def validateListInner (innerTypes : Option (List TypeKind)) (matched : TypeKind)
    (value : PyVal) : Except TypeErr Unit :=
  match innerTypes with
  | Option.none => .ok ()
  | some its =>
    match matched, value with
    | .list, .list items =>
      match its with
      | [] => .error .indexError
      | itemType :: _ => checkListItems itemType 0 items
    | _, _ => .ok ()

/-- The per-entry value check of the dict-inner loop: a dict value must be
an instance of `value_type`, except that `int` values are allowed when
`value_type` is `float`. -/
def checkDictValue (valueType : Option TypeKind) (k v : PyVal) :
    Except TypeErr Unit :=
  match valueType with
  | Option.none => .ok ()
  | some vt =>
    if !isinstanceKind v vt then
      if vt == TypeKind.float && isinstanceKind v .int then .ok ()
      else .error (.dictValueMismatch k vt (runtimeKind v) v)
    else .ok ()

/-- One iteration of the `for k, v in value.items()` loop: the key check
(no widening) runs before the value check. -/
def checkDictEntry (keyType valueType : Option TypeKind) (k v : PyVal) :
    Except TypeErr Unit :=
  match keyType with
  | Option.none => checkDictValue valueType k v
  | some kt =>
    if !isinstanceKind k kt then
      .error (.dictKeyMismatch kt (runtimeKind k) k)
    else checkDictValue valueType k v

/-- The `for k, v in value.items()` loop of the dict-inner check. -/
def checkDictEntries (keyType valueType : Option TypeKind) :
    List (PyVal × PyVal) → Except TypeErr Unit
  | [] => .ok ()
  | (k, v) :: rest =>
    match checkDictEntry keyType valueType k v with
    | .error e => .error e
    | .ok _ => checkDictEntries keyType valueType rest

/-- The dict-inner check of `validate_type`: runs only when `inner_types`
is present and the matched base type is `dict`; `key_type` is
`inner_types[0]` when present, `value_type` is `inner_types[1]` when
present. -/
def validateDictInner (innerTypes : Option (List TypeKind)) (matched : TypeKind)
    (value : PyVal) : Except TypeErr Unit :=
  match innerTypes with
  | Option.none => .ok ()
  | some its =>
    match matched, value with
    | .dict, .dict entries => checkDictEntries its.head? its[1]? entries
    | _, _ => .ok ()

/-- Model of `validate_type(value, type_hint)`: parse the hint, handle `None`
against `is_optional`, scan `base_types` for the first match under the
int-to-float widening, then check list/dict inner types. -/
def validate_type (value : PyVal) (typeHint : PyStr) : Except TypeErr Bool :=
  match parse_type_hint typeHint with
  | .error e => .error e
  | .ok d =>
    if value.isNone then
      if d.is_optional then .ok true
      else .error (.noneNotOptional typeHint)
    else
      match d.base_types.find? (baseMatches value) with
      | Option.none => .error (.typeMismatch d.base_types (runtimeKind value) value)
      | some matchedType =>
        match validateListInner d.inner_types matchedType value with
        | .error e => .error e
        | .ok _ =>
          match validateDictInner d.inner_types matchedType value with
          | .error e => .error e
          | .ok _ => .ok true

/-- Model of `is_bool(value)`: boolean-literal recognition over strings. -/
def is_bool (value : PyStr) : Bool :=
  ["true".data, "false".data, "yes".data, "no".data, "on".data,
    "off".data].contains (pyLower value)

/-- Model of `to_bool(value)`: conversion of a boolean-literal string. -/
def to_bool (value : PyStr) : Bool :=
  ["true".data, "yes".data, "on".data].contains (pyLower value)

/-- Python's truthiness, `bool(v)`: empty containers and strings, zero
numbers and `None` are falsy. -/
def pyTruthy : PyVal → Bool
  | .none => false
  | .bool b => b
  | .int n => n != 0
  | .float x => x != 0
  | .str s => !s.isEmpty
  | .list items => !items.isEmpty
  | .dict entries => !entries.isEmpty

/-- A run of decimal digits as a number, `Option.none` when empty or
non-digit. -/
def digitsToNat : List Char → Option Nat
  | [] => Option.none
  | [c] => if c.isDigit then some (c.toNat - '0'.toNat) else Option.none
  | c :: rest =>
    if c.isDigit then
      (digitsToNat rest).map (fun n => (c.toNat - '0'.toNat) * 10 ^ rest.length + n)
    else Option.none

/-- CPython's `int(str)` on the plain decimal forms: surrounding
whitespace, an optional sign, a non-empty digit run.  Underscore
separators and non-decimal bases are not modelled (no claim depends on
them). -/
def pyParseInt (s : PyStr) : Option Int :=
  match pyStrip s with
  | '+' :: ds => (digitsToNat ds).map Int.ofNat
  | '-' :: ds => (digitsToNat ds).map (fun n => -(n : Int))
  | ds => (digitsToNat ds).map Int.ofNat

/-- CPython's `float(str)` on the plain decimal forms `[sign] digits
[. digits]` / `[sign] . digits`.  Exponents, `inf`/`nan` and underscore
separators are not modelled (no claim depends on them). -/
def pyParseFloat (s : PyStr) : Option Rat :=
  let core : PyStr → Option Rat := fun t =>
    match pySplit '.' t with
    | [ip] => (digitsToNat ip).map (fun n => (n : Rat))
    | [ip, fp] =>
      if ip = [] && fp = [] then Option.none
      else
        let ipn := if ip = [] then some 0 else digitsToNat ip
        let fpn := if fp = [] then some 0 else digitsToNat fp
        match ipn, fpn with
        | some a, some b => some ((a : Rat) + (b : Rat) / ((10 : Rat) ^ fp.length))
        | _, _ => Option.none
    | _ => Option.none
  match pyStrip s with
  | '+' :: t => core t
  | '-' :: t => (core t).map (fun x => -x)
  | t => core t

/-- Truncation toward zero, CPython's `int(float)`. -/
def ratTrunc (x : Rat) : Int := x.num / (x.den : Int)

/-- Python's `float(value)` on a value of integral kind (the guard of the
int-to-float special case of `coerce_to_type`). -/
def pyFloatOfIntegral : PyVal → Rat
  | .int n => (n : Rat)
  | .bool b => if b then 1 else 0
  | _ => 0

/-- Decimal rendering of an integer, as Python prints it. -/
def intRepr (n : Int) : PyStr := (toString n).data

mutual
/-- Python's `repr`.  Quote escaping inside string reprs and the
shortest-round-trip float rendering are abstracted (floats here are exact
rationals, rendered as `num.0` or `num/den`); no claim depends on these
renderings. -/
def pyRepr : PyVal → PyStr
  | .none => "None".data
  | .bool b => if b then "True".data else "False".data
  | .int n => intRepr n
  | .float x =>
    if x.den = 1 then intRepr x.num ++ ".0".data
    else intRepr x.num ++ "/".data ++ (toString x.den).data
  | .str s => '\'' :: s ++ ['\'']
  | .list items => '[' :: pyReprJoin items ++ [']']
  | .dict entries => '\x7b' :: pyReprJoinPairs entries ++ ['\x7d']

/-- Comma-joined reprs of list items. -/
def pyReprJoin : List PyVal → PyStr
  | [] => []
  | [v] => pyRepr v
  | v :: rest => pyRepr v ++ ", ".data ++ pyReprJoin rest

/-- Comma-joined `key: value` reprs of dict entries. -/
def pyReprJoinPairs : List (PyVal × PyVal) → PyStr
  | [] => []
  | [(k, v)] => pyRepr k ++ ": ".data ++ pyRepr v
  | (k, v) :: rest => pyRepr k ++ ": ".data ++ pyRepr v ++ ", ".data ++ pyReprJoinPairs rest
end

/-- Python's `str(value)`: the string itself for strings, `repr`-style
rendering otherwise. -/
def pyStrOf (v : PyVal) : PyStr :=
  match v with
  | .str s => s
  | _ => pyRepr v

/-- The result of calling a builtin type on a value: a value, or one of
the two exception classes `coerce_to_type` catches. -/
inductive PyCallResult where
  | ok (v : PyVal)
  | valueError (reason : String)
  | typeError (reason : String)

/-- The two exception classes a builtin-constructor call can raise here. -/
inductive PyExc where
  | valueError (reason : String)
  | typeError (reason : String)

/-- Python's `dict(items)` on a list: every element must be a two-element sequence
(a `[k, v]` list or a two-character string) with a hashable key.  The
overwrite of duplicate keys by the host dict is not modelled (no claim
depends on it). -/
def dictPairs : List PyVal → Except PyExc (List (PyVal × PyVal))
  | [] => .ok []
  | item :: rest =>
    match item with
    | .list [k, v] =>
      match k with
      | .list _ => .error (.typeError "unhashable type")
      | .dict _ => .error (.typeError "unhashable type")
      | _ =>
        match dictPairs rest with
        | .ok entries => .ok ((k, v) :: entries)
        | .error e => .error e
    | .str [c1, c2] =>
      match dictPairs rest with
      | .ok entries => .ok ((.str [c1], .str [c2]) :: entries)
      | .error e => .error e
    | .str _ => .error (.valueError "dictionary update sequence element has wrong length")
    | .list _ => .error (.valueError "dictionary update sequence element has wrong length")
    | _ => .error (.typeError "cannot convert dictionary update sequence element")

/-- Model of `base_type(value)`: calling the builtin type on a value, with the
CPython success and exception behaviour for each target kind. -/
def pyCall : TypeKind → PyVal → PyCallResult
  | .int, .bool b => .ok (.int (if b then 1 else 0))
  | .int, .int n => .ok (.int n)
  | .int, .float x => .ok (.int (ratTrunc x))
  | .int, .str s =>
    match pyParseInt s with
    | some n => .ok (.int n)
    | Option.none => .valueError "invalid literal for int() with base 10"
  | .int, _ => .typeError "int() argument must be a string or a number"
  | .float, .bool b => .ok (.float (if b then 1 else 0))
  | .float, .int n => .ok (.float (n : Rat))
  | .float, .float x => .ok (.float x)
  | .float, .str s =>
    match pyParseFloat s with
    | some x => .ok (.float x)
    | Option.none => .valueError "could not convert string to float"
  | .float, _ => .typeError "float() argument must be a string or a number"
  | .str, v => .ok (.str (pyStrOf v))
  | .bool, v => .ok (.bool (pyTruthy v))
  | .list, .str s => .ok (.list (s.map (fun c => .str [c])))
  | .list, .list items => .ok (.list items)
  | .list, .dict entries => .ok (.list (entries.map (fun e => e.1)))
  | .list, _ => .typeError "object is not iterable"
  | .dict, .dict entries => .ok (.dict entries)
  | .dict, .list items =>
    match dictPairs items with
    | .ok entries => .ok (.dict entries)
    | .error (.valueError r) => .valueError r
    | .error (.typeError r) => .typeError r
  | .dict, .str s =>
    if s = [] then .ok (.dict [])
    else .valueError "dictionary update sequence element has wrong length"
  | .dict, _ => .typeError "object is not iterable"
  | .noneType, _ => .typeError "NoneType takes no arguments"

/-- The `try: return base_type(value) except (ValueError, TypeError)` tail
of `coerce_to_type`. -/
def tryConstruct (baseType : TypeKind) (value : PyVal) (typeHint : PyStr) :
    Except TypeErr PyVal :=
  match pyCall baseType value with
  | .ok v => .ok v
  | .valueError reason => .error (.coercionFailed (runtimeKind value) typeHint reason)
  | .typeError reason => .error (.coercionFailed (runtimeKind value) typeHint reason)

/-- Model of `coerce_to_type(value, type_hint)`: parse the hint, handle `None`,
return the value unchanged when its runtime type is an instance of any
base type, otherwise convert toward `base_types[0]` through the
int-to-float special case, the boolean-literal-string special case, and
finally the builtin constructor.  The source's nested
`if base_type == bool and isinstance(value, str): if is_bool(value): ...`
(with fall-through to the constructor attempt when the inner test fails)
is rendered as the single short-circuit guard below. -/
def coerce_to_type (value : PyVal) (typeHint : PyStr) : Except TypeErr PyVal :=
  match parse_type_hint typeHint with
  | .error e => .error e
  | .ok d =>
    if value.isNone then
      if d.is_optional then .ok .none
      else .error (.cannotCoerceNone typeHint)
    else
      if d.base_types.any (fun bt => isinstanceKind value bt) then .ok value
      else
        match d.base_types with
        | [] => .error .indexError
        | baseType :: _ =>
          if baseType == TypeKind.float && isinstanceKind value .int then
            .ok (.float (pyFloatOfIntegral value))
          else if baseType == TypeKind.bool && value.isStr
              && is_bool (strPayload value) then
            .ok (.bool (to_bool (strPayload value)))
          else tryConstruct baseType value typeHint

/-- The regex character class `[A-Za-z0-9\-\_\.]` of `CONFIG_KEY_RE`. -/
def isIdentChar (c : Char) : Bool :=
  c.isAlpha || c.isDigit || c = '-' || c = '_' || c = '.'

/-- Model of `CONFIG_KEY_RE.match(value)` as a predicate: whether the anchored
regex `[A-Za-z0-9\-\_\.]+\s*=` matches a prefix of the string.  The three
character classes of the pattern are pairwise disjoint, so the
backtracking search is equivalent to this greedy scan: a non-empty
maximal identifier run, a maximal whitespace run, then `=`. -/
def configKeyMatch (s : PyStr) : Bool :=
  let ident := s.takeWhile isIdentChar
  let rest := s.dropWhile isIdentChar
  !ident.isEmpty && (rest.dropWhile pyIsSpace).head? == some '='

/-- Model of `is_config(value)`, i.e. `'\n' in value or CONFIG_KEY_RE.match(value)`. -/
def is_config (value : PyStr) : Bool :=
  value.contains '\n' || configKeyMatch value

/-- The union branch as the specification describes it, written as a
direct (non-accumulating) recursion to be compared with the source's
loop: process the trimmed parts left to right; a case-insensitive `none`
only sets the optional flag; every other part is resolved through the
base-name lookup, failing with the unknown-type error, and contributes
its kind in encounter order. -/
def unionBranchSpec : List PyStr → Except TypeErr (List TypeKind × Bool)
  | [] => .ok ([], false)
  | part :: rest =>
    if pyLower part = "none".data then
      match unionBranchSpec rest with
      | .error e => .error e
      | .ok (bs, _) => .ok (bs, true)
    else
      match typeMapGet (pyLower part) with
      | Option.none => .error (.unknownType part)
      | some t =>
        match unionBranchSpec rest with
        | .error e => .error e
        | .ok (bs, opt) => .ok (t :: bs, opt)

/-! ### Helper lemmas -/

lemma baseMatches_of_isinstance {v : PyVal} {bt : TypeKind}
    (h : isinstanceKind v bt = true) : baseMatches v bt = true := by
  unfold baseMatches
  split
  · rfl
  · exact h

lemma baseMatches_int (n : Int) (k : TypeKind) :
    baseMatches (.int n) k = true ↔ k = .int ∨ k = .float := by
  cases k <;> simp [baseMatches, isinstanceKind]

lemma validateListInner_of_int (inner : Option (List TypeKind)) {m : TypeKind}
    (hm : m = .int ∨ m = .float) (n : Int) :
    validateListInner inner m (.int n) = .ok () := by
  cases inner with
  | none => rfl
  | some its => rcases hm with rfl | rfl <;> rfl

lemma validateDictInner_of_int (inner : Option (List TypeKind)) {m : TypeKind}
    (hm : m = .int ∨ m = .float) (n : Int) :
    validateDictInner inner m (.int n) = .ok () := by
  cases inner with
  | none => rfl
  | some its => rcases hm with rfl | rfl <;> rfl

lemma validate_type_ok_of {value : PyVal} {h : PyStr} {d : TypeDescriptor}
    {m : TypeKind} (hp : parse_type_hint h = .ok d) (hv : value.isNone = false)
    (hfind : d.base_types.find? (baseMatches value) = some m)
    (hl : validateListInner d.inner_types m value = .ok ())
    (hd : validateDictInner d.inner_types m value = .ok ()) :
    validate_type value h = .ok true := by
  unfold validate_type
  rw [hp]
  simp only [hv, Bool.false_eq_true, if_false, hfind, hl, hd]

lemma validate_type_mismatch_of {value : PyVal} {h : PyStr} {d : TypeDescriptor}
    (hp : parse_type_hint h = .ok d) (hv : value.isNone = false)
    (hfind : d.base_types.find? (baseMatches value) = Option.none) :
    validate_type value h =
      .error (.typeMismatch d.base_types (runtimeKind value) value) := by
  unfold validate_type
  rw [hp]
  simp only [hv, Bool.false_eq_true, if_false, hfind]

/-! ### Claims -/

/-- Claim C5: top-level numeric widening in the validator is
one-directional.  Every integer value validates against any accepted hint
whose base types contain `float`; every float value fails, with a
`TypeMismatchError`, against any accepted hint whose base types are
exactly `[int]`. -/
theorem widening_one_directional :
    (∀ (n : Int) (h : PyStr) (d : TypeDescriptor),
      parse_type_hint h = .ok d → TypeKind.float ∈ d.base_types →
      validate_type (.int n) h = .ok true) ∧
    (∀ (x : Rat) (h : PyStr) (d : TypeDescriptor),
      parse_type_hint h = .ok d → d.base_types = [TypeKind.int] →
      validate_type (.float x) h =
        .error (.typeMismatch [TypeKind.int] .float (.float x))) := by
  constructor
  · intro n h d hp hf
    have hex : ∃ m, d.base_types.find? (baseMatches (.int n)) = some m := by
      rw [← Option.isSome_iff_exists]
      rw [List.find?_isSome]
      exact ⟨_, hf, (baseMatches_int n .float).mpr (Or.inr rfl)⟩
    obtain ⟨m, hm⟩ := hex
    have hmk : m = .int ∨ m = .float :=
      (baseMatches_int n m).mp (List.find?_some hm)
    exact validate_type_ok_of hp rfl hm
      (validateListInner_of_int _ hmk n) (validateDictInner_of_int _ hmk n)
  · intro x h d hp hb
    have hfind : d.base_types.find? (baseMatches (.float x)) = Option.none := by
      rw [hb]
      rfl
    have := validate_type_mismatch_of hp
      (show (PyVal.float x).isNone = false from rfl) hfind
    rw [hb] at this
    exact this

/-- Witness for C5: `validate_type(5, "float")` succeeds and
`validate_type(5.0, "int")` fails with a type mismatch. -/
theorem widening_one_directional_witness :
    validate_type (.int 5) "float".data = .ok true ∧
    validate_type (.float 5) "int".data =
      .error (.typeMismatch [TypeKind.int] .float (.float 5)) :=
  ⟨widening_one_directional.1 5 "float".data
      ⟨[TypeKind.float], false, Option.none⟩ rfl (List.mem_singleton.mpr rfl),
    widening_one_directional.2 5 "int".data
      ⟨[TypeKind.int], false, Option.none⟩ rfl rfl⟩

/-- Claim C6: dict generic checking widens asymmetrically.  An integer
dict value passes a `float` value kind; an integer dict key fails a
`float` key kind with an error naming the offending key; the two spec
examples behave as stated. -/
theorem dict_widening_values_only :
    (∀ (n : Int),
      validate_type (.dict [(.str "a".data, .int n)]) "dict[str, float]".data =
        .ok true) ∧
    (∀ (n : Int) (v : PyVal),
      validate_type (.dict [(.int n, v)]) "dict[float, str]".data =
        .error (.dictKeyMismatch .float .int (.int n))) ∧
    validate_type (.dict [(.str "a".data, .int 1), (.str "b".data, .float (5/2))])
      "dict[str, float]".data = .ok true ∧
    validate_type (.dict [(.int 1, .str "x".data)]) "dict[str, int]".data =
      .error (.dictKeyMismatch .str .int (.int 1)) :=
  ⟨fun _ => rfl, fun _ _ => rfl, rfl, rfl⟩

/-- Claim C9: booleans are integral at the public interface.  Every
boolean validates against `"int"` and `"float"`, and coercion to `"int"`
returns it unchanged through the fast path. -/
theorem bool_is_integral :
    ∀ b : Bool,
      validate_type (.bool b) "int".data = .ok true ∧
      validate_type (.bool b) "float".data = .ok true ∧
      coerce_to_type (.bool b) "int".data = .ok (.bool b) := by
  intro b
  cases b <;> exact ⟨rfl, rfl, rfl⟩

/-- Claim C10: coercing a string to `bool` never fails.  For any string
outside the boolean-literal set, `coerce_to_type` falls through to the
`bool` constructor and returns the string's truthiness: `true` for
non-empty strings, `false` for the empty string. -/
theorem bool_coercion_total :
    ∀ s : PyStr, is_bool s = false →
      coerce_to_type (.str s) "bool".data = .ok (.bool (!s.isEmpty)) := by
  intro s hs
  unfold coerce_to_type
  rw [show parse_type_hint "bool".data =
    .ok ⟨[TypeKind.bool], false, Option.none⟩ from rfl]
  simp only [PyVal.isNone, Bool.false_eq_true, if_false, List.any_cons,
    List.any_nil, isinstanceKind, Bool.or_false, hs, Bool.and_false,
    PyVal.isStr, strPayload, Bool.true_and, Bool.and_true,
    tryConstruct, pyCall, pyTruthy, beq_self_eq_true]

/-- Witness for C10 at the non-literal string `"x"`. -/
theorem bool_coercion_total_witness :
    is_bool "x".data = false ∧
    coerce_to_type (.str "x".data) "bool".data = .ok (.bool true) :=
  ⟨rfl, bool_coercion_total "x".data rfl⟩

lemma eq_none_of_isNone {v : PyVal} (h : v.isNone = true) : v = .none := by
  cases v <;> simp [PyVal.isNone] at h ⊢

/-- A successful builtin-constructor call returns an instance of the
target kind. -/
lemma pyCall_ok_isinstance {k : TypeKind} {v w : PyVal}
    (h : pyCall k v = .ok w) : isinstanceKind w k = true := by
  cases k <;> cases v <;>
    simp only [pyCall] at h <;>
    first
      | (cases h <;> rfl)
      | (split at h <;> cases h <;> rfl)

/-- Counterexample to C1: coercion of `["x"]` to `list[int]` succeeds
through the fast path without inspecting the inner kind, yet validation of
the returned value fails on the inner kind. -/
theorem coercion_skips_inner_cex :
    coerce_to_type (.list [.str "x".data]) "list[int]".data =
      .ok (.list [.str "x".data]) ∧
    validate_type (.list [.str "x".data]) "list[int]".data =
      .error (.listItemMismatch 0 .int .str (.str "x".data)) :=
  ⟨rfl, rfl⟩

/-- A successful builtin-constructor call never returns `None`. -/
lemma pyCall_ok_not_none {k : TypeKind} {v w : PyVal}
    (h : pyCall k v = .ok w) : w.isNone = false := by
  cases k <;> cases v <;>
    simp only [pyCall] at h <;>
    first
      | (cases h <;> rfl)
      | (split at h <;> cases h <;> rfl)

lemma validate_ok_of_head_isinstance {h : PyStr} {d : TypeDescriptor}
    {b : TypeKind} {rest : List TypeKind} {v' : PyVal}
    (hp : parse_type_hint h = .ok d) (hinner : d.inner_types = Option.none)
    (hb : d.base_types = b :: rest) (hki : isinstanceKind v' b = true)
    (hn' : v'.isNone = false) : validate_type v' h = .ok true := by
  have hfind : d.base_types.find? (baseMatches v') = some b := by
    rw [hb]
    exact List.find?_cons_of_pos _ (baseMatches_of_isinstance hki)
  exact validate_type_ok_of hp hn' hfind
    (by rw [hinner]; rfl) (by rw [hinner]; rfl)

lemma tryConstruct_validates {h : PyStr} {d : TypeDescriptor}
    {b : TypeKind} {rest : List TypeKind} {v v' : PyVal}
    (hp : parse_type_hint h = .ok d) (hinner : d.inner_types = Option.none)
    (hb : d.base_types = b :: rest)
    (hc : tryConstruct b v h = .ok v') : validate_type v' h = .ok true := by
  unfold tryConstruct at hc
  cases hpc : pyCall b v with
  | ok w =>
    rw [hpc] at hc
    cases hc
    exact validate_ok_of_head_isinstance hp hinner hb
      (pyCall_ok_isinstance hpc) (pyCall_ok_not_none hpc)
  | valueError r => rw [hpc] at hc; cases hc
  | typeError r => rw [hpc] at hc; cases hc

/-- Claim C1 (amended): if the accepted hint's descriptor has no inner
kinds, then a successful coercion always passes validation; for generic
container hints the coercer does not check inner kinds (see the
counterexample). -/
theorem coerce_ok_validates_nongeneric :
    ∀ (v : PyVal) (h : PyStr) (d : TypeDescriptor) (v' : PyVal),
      parse_type_hint h = .ok d → d.inner_types = Option.none →
      coerce_to_type v h = .ok v' → validate_type v' h = .ok true := by
  intro v h d v' hp hinner hc
  unfold coerce_to_type at hc
  rw [hp] at hc
  by_cases hn : v.isNone = true
  · rw [eq_none_of_isNone hn] at hc
    simp only [PyVal.isNone, if_true] at hc
    by_cases hopt : d.is_optional = true
    · rw [hopt] at hc
      simp only [if_true] at hc
      cases hc
      unfold validate_type
      rw [hp]
      simp only [PyVal.isNone, hopt, if_true]
    · rw [Bool.not_eq_true] at hopt
      rw [hopt] at hc
      simp only [Bool.false_eq_true, if_false] at hc
      cases hc
  · rw [Bool.not_eq_true] at hn
    rw [hn] at hc
    simp only [Bool.false_eq_true, if_false] at hc
    by_cases hfast : d.base_types.any (fun bt => isinstanceKind v bt) = true
    · rw [hfast] at hc
      simp only [if_true] at hc
      cases hc
      obtain ⟨bt, hbtmem, hbti⟩ := List.any_eq_true.mp hfast
      obtain ⟨m, hfind⟩ : ∃ m, d.base_types.find? (baseMatches v) = some m := by
        rw [← Option.isSome_iff_exists, List.find?_isSome]
        exact ⟨bt, hbtmem, baseMatches_of_isinstance hbti⟩
      exact validate_type_ok_of hp hn hfind
        (by rw [hinner]; rfl) (by rw [hinner]; rfl)
    · rw [Bool.not_eq_true] at hfast
      rw [hfast] at hc
      simp only [Bool.false_eq_true, if_false] at hc
      cases hb : d.base_types with
      | nil => rw [hb] at hc; cases hc
      | cons b rest =>
        rw [hb] at hc
        simp only [] at hc
        by_cases hflt : (b == TypeKind.float && isinstanceKind v .int) = true
        · rw [hflt] at hc
          simp only [if_true] at hc
          cases hc
          have hbf : b = TypeKind.float := by
            have := (Bool.and_eq_true _ _).mp hflt
            exact eq_of_beq this.1
          exact validate_ok_of_head_isinstance hp hinner hb
            (by rw [hbf]; rfl) rfl
        · rw [Bool.not_eq_true] at hflt
          rw [hflt] at hc
          simp only [Bool.false_eq_true, if_false] at hc
          by_cases hbool :
              (b == TypeKind.bool && v.isStr && is_bool (strPayload v)) = true
          · rw [hbool] at hc
            simp only [if_true] at hc
            cases hc
            have hbb : b = TypeKind.bool := by
              have := (Bool.and_eq_true _ _).mp ((Bool.and_eq_true _ _).mp hbool).1
              exact eq_of_beq this.1
            exact validate_ok_of_head_isinstance hp hinner hb
              (by rw [hbb]; rfl) rfl
          · rw [Bool.not_eq_true] at hbool
            rw [hbool] at hc
            simp only [Bool.false_eq_true, if_false] at hc
            exact tryConstruct_validates hp hinner hb hc

/-- Witness for C1 (amended): coercing the string `"42"` to `"int"`
succeeds and the result validates. -/
theorem coerce_ok_validates_nongeneric_witness :
    validate_type (.int 42) "int".data = .ok true :=
  coerce_ok_validates_nongeneric (.str "42".data) "int".data
    ⟨[TypeKind.int], false, Option.none⟩ (.int 42) rfl rfl rfl

lemma pyStrip_eq_self {l : PyStr}
    (h1 : ∀ c, l.head? = some c → pyIsSpace c = false)
    (h2 : ∀ c, l.getLast? = some c → pyIsSpace c = false) :
    pyStrip l = l := by
  unfold pyStrip pyStripLeft
  have hl : l.dropWhile pyIsSpace = l := by
    cases l with
    | nil => rfl
    | cons a t =>
      rw [List.dropWhile_cons, h1 a rfl]
      rfl
  rw [hl]
  cases hr : l.reverse with
  | nil =>
    have : l = [] := by simpa using congrArg List.reverse hr
    subst this
    rfl
  | cons b rb =>
    have hb : l.getLast? = some b := by
      rw [← List.head?_reverse, hr, List.head?_cons]
    rw [List.dropWhile_cons, h2 b hb]
    simp only [Bool.false_eq_true, if_false]
    rw [← hr, List.reverse_reverse]

lemma contains_eq_false_iff {l : PyStr} {c : Char} :
    l.contains c = false ↔ c ∉ l := by
  rw [show l.contains c = l.elem c from rfl, List.elem_eq_mem,
    decide_eq_false_iff_not]

lemma contains_pyStrip_eq_false {X : PyStr} {c : Char}
    (h : X.contains c = false) : (pyStrip X).contains c = false := by
  rw [contains_eq_false_iff] at h ⊢
  intro hmem
  apply h
  unfold pyStrip pyStripLeft at hmem
  rw [List.mem_reverse] at hmem
  have h1 := List.dropWhile_subset pyIsSpace hmem
  rw [List.mem_reverse] at h1
  exact List.dropWhile_subset pyIsSpace h1

lemma isPrefixOf_append_self (a b : PyStr) : a.isPrefixOf (a ++ b) = true := by
  induction a with
  | nil => cases b <;> rfl
  | cons c t ih =>
    rw [List.cons_append]
    show (c == c && t.isPrefixOf (t ++ b)) = true
    rw [ih, beq_self_eq_true]
    rfl

lemma parseNonUnion_optional (t : PyStr) :
    parseNonUnion t true =
      match parseNonUnion t false with
      | .error e => .error e
      | .ok d => .ok ⟨d.base_types, true, d.inner_types⟩ := by
  unfold parseNonUnion
  dsimp only
  split
  · split
    · rfl
    · split
      · rfl
      · rfl
  · split
    · rfl
    · rfl

/-- Claim C3 (amended): for every accepted pipe-free hint `X` that is not
itself of the `Optional[...]` shape, `parseTypeHint("Optional[" + X +
"]")` succeeds with the same base and inner types as `parseTypeHint(X)`
and `optional` forced true.  When `X` is itself `Optional[...]` the
wrapper branch strips only one textual layer and then fails on the token
`Optional` (see the counterexample), because it does not recurse. -/
theorem optional_wrapper_adds_optional :
    ∀ (X : PyStr) (d : TypeDescriptor),
      X.contains '|' = false →
      ("Optional[".data.isPrefixOf (pyStrip X)
        && pyEndsWith (pyStrip X) ']') = false →
      parse_type_hint X = .ok d →
      parse_type_hint ("Optional[".data ++ X ++ [']']) =
        .ok ⟨d.base_types, true, d.inner_types⟩ := by
  intro X d hpipe hopt hX
  have hpipe' : (pyStrip X).contains '|' = false :=
    contains_pyStrip_eq_false hpipe
  unfold parse_type_hint at hX
  simp only [hpipe', Bool.false_eq_true, if_false, hopt] at hX
  have hstrip : pyStrip ("Optional[".data ++ X ++ [']']) =
      "Optional[".data ++ X ++ [']'] := by
    apply pyStrip_eq_self
    · intro c hc
      rw [show "Optional[".data ++ X ++ [']'] =
          'O' :: ("ptional[".data ++ X ++ [']']) from rfl] at hc
      rw [List.head?_cons] at hc
      injection hc with hc
      subst hc
      rfl
    · intro c hc
      rw [List.getLast?_concat] at hc
      injection hc with hc
      subst hc
      rfl
  have hcont : ("Optional[".data ++ X ++ [']']).contains '|' = false := by
    rw [contains_eq_false_iff] at hpipe ⊢
    intro hmem
    rw [List.mem_append] at hmem
    rcases hmem with hmem | hmem
    · rw [List.mem_append] at hmem
      rcases hmem with hmem | hmem
      · exact absurd hmem (by decide)
      · exact hpipe hmem
    · exact absurd hmem (by decide)
  have hcond : ("Optional[".data.isPrefixOf
      ("Optional[".data ++ X ++ [']'])
      && pyEndsWith ("Optional[".data ++ X ++ [']']) ']') = true := by
    have hpre : "Optional[".data.isPrefixOf
        ("Optional[".data ++ X ++ [']']) = true := by
      rw [List.append_assoc]
      exact isPrefixOf_append_self _ _
    have hend : pyEndsWith ("Optional[".data ++ X ++ [']']) ']' = true := by
      unfold pyEndsWith
      rw [List.getLast?_concat]
      rfl
    rw [hpre, hend]
    rfl
  have hdrop : ((("Optional[".data ++ X ++ [']']).drop 9).dropLast) = X := by
    rw [show (9 : Nat) = ("Optional[".data).length from rfl,
      List.append_assoc, List.drop_left]
    exact List.dropLast_concat
  unfold parse_type_hint
  simp only [hstrip, hcont, Bool.false_eq_true, if_false, hcond, if_true,
    hdrop]
  rw [parseNonUnion_optional, hX]

/-- Witness for C3 (amended) at `X = "list[int]"`. -/
theorem optional_wrapper_adds_optional_witness :
    parse_type_hint "Optional[list[int]]".data =
      .ok ⟨[TypeKind.list], true, some [TypeKind.int]⟩ :=
  optional_wrapper_adds_optional "list[int]".data
    ⟨[TypeKind.list], false, some [TypeKind.int]⟩ rfl rfl rfl

/-- Counterexample to C2: `validate_type(5, "float")` succeeds via the
int-to-float widening, but `coerce_to_type(5, "float")` does not return
the integer `5` unchanged — its fast path lacks the widening rule, so it
converts and returns the float `5.0`. -/
theorem coerce_fast_path_no_widening_cex :
    validate_type (.int 5) "float".data = .ok true ∧
    coerce_to_type (.int 5) "float".data = .ok (.float 5) ∧
    PyVal.float 5 ≠ PyVal.int 5 :=
  ⟨rfl, rfl, fun hx => PyVal.noConfusion hx⟩

/-- Claim C2 (amended): the coercer's fast path uses plain `isinstance`
matching without the int-satisfies-float widening.  Whenever the value's
runtime kind is an instance of some base type (or the value is `None` and
the hint optional), `coerce_to_type` returns the value unchanged; an
integer against a float-only hint is instead converted to a float. -/
theorem coerce_fast_path_plain_match :
    (∀ (v : PyVal) (h : PyStr) (d : TypeDescriptor),
      parse_type_hint h = .ok d →
      (v.isNone = true → d.is_optional = true) →
      (v.isNone = false →
        d.base_types.any (fun bt => isinstanceKind v bt) = true) →
      coerce_to_type v h = .ok v) ∧
    coerce_to_type (.int 5) "float".data = .ok (.float 5) := by
  constructor
  · intro v h d hp hopt hany
    unfold coerce_to_type
    rw [hp]
    cases hn : v.isNone with
    | true =>
      rw [eq_none_of_isNone hn]
      simp only [PyVal.isNone, if_true, hopt hn]
    | false =>
      simp only [hn, Bool.false_eq_true, if_false, hany hn, if_true]
  · rfl

/-- Witness for C2 (amended): a boolean against `"int"` plainly matches
the `int` base type and is returned unchanged. -/
theorem coerce_fast_path_plain_match_witness :
    coerce_to_type (.bool true) "float | int".data = .ok (.bool true) :=
  coerce_fast_path_plain_match.1 (.bool true) "float | int".data
    ⟨[TypeKind.float, TypeKind.int], false, Option.none⟩ rfl
    (fun hx => by cases hx) (fun _ => rfl)

/-- Counterexample to C3: `"Optional[int]"` is an accepted pipe-free
hint, yet wrapping it again as `"Optional[Optional[int]]"` is rejected
with `UnknownTypeError` on the token `Optional` — the wrapper branch
strips one layer textually instead of recursing. -/
theorem optional_wrapper_not_recursive_cex :
    parse_type_hint "Optional[int]".data =
      .ok ⟨[TypeKind.int], true, Option.none⟩ ∧
    "Optional[int]".data.contains '|' = false ∧
    parse_type_hint "Optional[Optional[int]]".data =
      .error (.unknownType "Optional".data) :=
  ⟨rfl, rfl, rfl⟩

/-- Counterexample to C4: the simple-name hint `"none"` and the wrapped
hint `"Optional[None]"` both parse with the null kind as the sole member
of `base_types`, contradicting the invariant that `NoneType` never
appears there. -/
theorem noneType_in_base_types_cex :
    parse_type_hint "none".data =
      .ok ⟨[TypeKind.noneType], false, Option.none⟩ ∧
    parse_type_hint "Optional[None]".data =
      .ok ⟨[TypeKind.noneType], true, Option.none⟩ :=
  ⟨rfl, rfl⟩

lemma unionFold_eq_spec (ts : PyStr) :
    ∀ (parts : List PyStr) (acc : List TypeKind) (opt : Bool),
      unionFold ts parts acc opt =
        match unionBranchSpec parts with
        | .error e => .error e
        | .ok (bs, o) =>
          if acc ++ bs = [] then .error (.malformedUnion ts)
          else .ok ⟨acc ++ bs, opt || o, Option.none⟩ := by
  intro parts
  induction parts with
  | nil =>
    intro acc opt
    simp [unionFold, unionBranchSpec]
  | cons part rest ih =>
    intro acc opt
    simp only [unionFold, unionBranchSpec]
    by_cases hnone : pyLower part = "none".data
    · rw [if_pos hnone, if_pos hnone, ih]
      cases hspec : unionBranchSpec rest with
      | error e => rfl
      | ok p =>
        obtain ⟨bs, o⟩ := p
        simp
    · rw [if_neg hnone, if_neg hnone]
      cases hlook : typeMapGet (pyLower part) with
      | none => rfl
      | some t =>
        dsimp only
        rw [ih]
        cases hspec : unionBranchSpec rest with
        | error e => rfl
        | ok p =>
          obtain ⟨bs, o⟩ := p
          simp

/-- Claim C7: for every hint whose stripped text contains `|`,
`parse_type_hint` behaves exactly as the specification's description of
the union branch (split on `|`, trim, case-insensitive `none` parts set
only the optional flag, other parts resolve through the lookup in
encounter order, empty unions are malformed); and the two quoted examples
behave as stated. -/
theorem union_branch_behavior :
    (∀ s : PyStr, (pyStrip s).contains '|' = true →
      parse_type_hint s =
        match unionBranchSpec ((pySplit '|' (pyStrip s)).map pyStrip) with
        | .error e => .error e
        | .ok (bs, opt) =>
          if bs = [] then .error (.malformedUnion (pyStrip s))
          else .ok ⟨bs, opt, Option.none⟩) ∧
    parse_type_hint "int | str | None".data =
      .ok ⟨[TypeKind.int, TypeKind.str], true, Option.none⟩ ∧
    parse_type_hint "None | none".data =
      .error (.malformedUnion "None | none".data) := by
  refine ⟨?_, rfl, rfl⟩
  intro s hc
  unfold parse_type_hint
  simp only [hc, if_true]
  rw [unionFold_eq_spec]
  cases hspec : unionBranchSpec ((pySplit '|' (pyStrip s)).map pyStrip) with
  | error e => rfl
  | ok p =>
    obtain ⟨bs, o⟩ := p
    simp

/-- Witness for C7 at the hint `"dict | None"`. -/
theorem union_branch_behavior_witness :
    parse_type_hint "dict | None".data =
      .ok ⟨[TypeKind.dict], true, Option.none⟩ :=
  union_branch_behavior.1 "dict | None".data rfl

lemma char_ofNat_toNat {n : Nat} (h : n.isValidChar) :
    (Char.ofNat n).toNat = n := by
  unfold Char.ofNat
  rw [dif_pos h]
  simp [Char.ofNatAux, Char.toNat, UInt32.toNat, BitVec.toNat_ofNatLt]

lemma toLower_ne_upper_N (c : Char) : c.toLower ≠ 'N' := by
  intro h
  rw [show Char.toLower c =
      if c.toNat ≥ 65 ∧ c.toNat ≤ 90 then Char.ofNat (c.toNat + 32) else c
    from rfl] at h
  split at h
  · rename_i hc
    have hvalid : (c.toNat + 32).isValidChar := Or.inl (by omega)
    have hv := char_ofNat_toNat hvalid
    rw [h] at hv
    have hN : ('N' : Char).toNat = 78 := rfl
    omega
  · rename_i hc
    rw [h] at hc
    exact hc (by decide)

lemma pyLower_ne_None (l : PyStr) : pyLower l ≠ "None".data := by
  intro h
  unfold pyLower at h
  cases l with
  | nil => cases h
  | cons c t =>
    rw [show ("None".data : PyStr) = 'N' :: "one".data from rfl] at h
    rw [List.map_cons] at h
    injection h with h1 _
    exact toLower_ne_upper_N c h1

lemma typeMapGet_eq_noneType {s : PyStr} (h : typeMapGet s = some .noneType) :
    s = "none".data ∨ s = "None".data := by
  unfold typeMapGet at h
  split_ifs at h <;> simp_all

lemma unionFold_ok_no_noneType (ts : PyStr) :
    ∀ (parts : List PyStr) (acc : List TypeKind) (opt : Bool)
      (d : TypeDescriptor),
      TypeKind.noneType ∉ acc →
      unionFold ts parts acc opt = .ok d →
      TypeKind.noneType ∉ d.base_types := by
  intro parts
  induction parts with
  | nil =>
    intro acc opt d hacc h
    unfold unionFold at h
    split at h
    · cases h
    · cases h; exact hacc
  | cons part rest ih =>
    intro acc opt d hacc h
    unfold unionFold at h
    split at h
    · exact ih _ _ _ hacc h
    · rename_i hnone
      cases hlook : typeMapGet (pyLower part) with
      | none => rw [hlook] at h; cases h
      | some t =>
        rw [hlook] at h
        refine ih _ _ _ ?_ h
        intro hmem
        rw [List.mem_append] at hmem
        rcases hmem with hmem | hmem
        · exact hacc hmem
        · rw [List.mem_singleton] at hmem
          rw [← hmem] at hlook
          rcases typeMapGet_eq_noneType hlook with he | he
          · exact hnone he
          · exact pyLower_ne_None part he

/-- Claim C4 (amended): in the pipe-union branch the null kind never
enters `base_types` — a `none` part only sets the optional flag.  The
simple-name branch, however, resolves the hint `"none"` (and the wrapped
`"Optional[None]"`) to the null kind as the sole base type, so the
invariant does not hold for those hints (see the counterexample). -/
theorem union_base_types_no_noneType :
    ∀ (s : PyStr) (d : TypeDescriptor),
      (pyStrip s).contains '|' = true →
      parse_type_hint s = .ok d →
      TypeKind.noneType ∉ d.base_types := by
  intro s d hc hp
  unfold parse_type_hint at hp
  simp only [hc, if_true] at hp
  exact unionFold_ok_no_noneType _ _ _ _ _ (by simp) hp

/-- Witness for C4 (amended) at the hint `"int | None"`. -/
theorem union_base_types_no_noneType_witness :
    TypeKind.noneType ∉ ([TypeKind.int] : List TypeKind) :=
  union_base_types_no_noneType "int | None".data
    ⟨[TypeKind.int], true, Option.none⟩ rfl rfl

lemma takeWhile_append_of_all {α : Type} {p : α → Bool} :
    ∀ {l₁ l₂ : List α}, (∀ c ∈ l₁, p c = true) →
      List.takeWhile p (l₁ ++ l₂) = l₁ ++ List.takeWhile p l₂ := by
  intro l₁
  induction l₁ with
  | nil => intro l₂ h; simp
  | cons a t ih =>
    intro l₂ h
    rw [List.cons_append, List.takeWhile_cons, h a (by simp), if_pos rfl,
      List.cons_append, ih (fun c hc => h c (by simp [hc]))]

lemma dropWhile_append_of_all {α : Type} {p : α → Bool} :
    ∀ {l₁ l₂ : List α}, (∀ c ∈ l₁, p c = true) →
      List.dropWhile p (l₁ ++ l₂) = List.dropWhile p l₂ := by
  intro l₁
  induction l₁ with
  | nil => intro l₂ h; simp
  | cons a t ih =>
    intro l₂ h
    rw [List.cons_append, List.dropWhile_cons, h a (by simp), if_pos rfl,
      ih (fun c hc => h c (by simp [hc]))]

lemma pyIsSpace_not_ident {c : Char} (h : pyIsSpace c = true) :
    isIdentChar c = false := by
  unfold pyIsSpace at h
  simp only [Bool.or_eq_true, decide_eq_true_eq] at h
  rcases h with ((((rfl | rfl) | rfl) | rfl) | rfl) | rfl <;> rfl

/-- Claim C8 (amended): `is_config` returns true exactly when the string
contains a newline, or when it starts — with no leading whitespace —
with a non-empty identifier of letters, digits, `-`, `_`, `.`, followed
by optional whitespace and then `=`.  An identifier preceded by leading
spaces is rejected, because the regex match is anchored at the start of
the string (see the counterexample). -/
theorem is_config_characterization :
    ∀ s : PyStr, is_config s = true ↔
      ('\n' ∈ s ∨
        ∃ ident ws rest, s = ident ++ ws ++ '=' :: rest ∧ ident ≠ [] ∧
          (∀ c ∈ ident, isIdentChar c = true) ∧
          (∀ c ∈ ws, pyIsSpace c = true)) := by
  intro s
  unfold is_config
  rw [Bool.or_eq_true]
  constructor
  · rintro (hnl | hkey)
    · left
      simpa using hnl
    · right
      unfold configKeyMatch at hkey
      rw [Bool.and_eq_true] at hkey
      obtain ⟨hne, heq⟩ := hkey
      simp only [Bool.not_eq_true', List.isEmpty_eq_false] at hne
      rw [beq_iff_eq] at heq
      cases hd : (s.dropWhile isIdentChar).dropWhile pyIsSpace with
      | nil => rw [hd] at heq; cases heq
      | cons a t =>
        rw [hd, List.head?_cons] at heq
        injection heq with ha
        subst ha
        refine ⟨s.takeWhile isIdentChar,
          (s.dropWhile isIdentChar).takeWhile pyIsSpace, t, ?_, hne,
          fun c hc => List.mem_takeWhile_imp hc,
          fun c hc => List.mem_takeWhile_imp hc⟩
        have e2 : s.dropWhile isIdentChar =
            (s.dropWhile isIdentChar).takeWhile pyIsSpace ++ '=' :: t := by
          conv_lhs => rw [← List.takeWhile_append_dropWhile pyIsSpace
            (s.dropWhile isIdentChar)]
          rw [hd]
        rw [List.append_assoc]
        conv_lhs => rw [← List.takeWhile_append_dropWhile isIdentChar s, e2]
  · rintro (hnl | ⟨ident, ws, rest, rfl, hne, hid, hws⟩)
    · left
      simpa using hnl
    · right
      unfold configKeyMatch
      rw [Bool.and_eq_true]
      have hassoc : ident ++ ws ++ '=' :: rest =
          ident ++ (ws ++ '=' :: rest) := List.append_assoc _ _ _
      constructor
      · rw [hassoc, takeWhile_append_of_all hid]
        have ht : List.takeWhile isIdentChar (ws ++ '=' :: rest) = [] := by
          cases ws with
          | nil => rw [List.nil_append, List.takeWhile_cons]; rfl
          | cons w ws' =>
            rw [List.cons_append, List.takeWhile_cons,
              pyIsSpace_not_ident (hws w (by simp))]
            rfl
        rw [ht, List.append_nil]
        simp only [Bool.not_eq_true', List.isEmpty_eq_false]
        exact hne
      · rw [hassoc, dropWhile_append_of_all hid]
        have h1 : List.dropWhile isIdentChar (ws ++ '=' :: rest) =
            ws ++ '=' :: rest := by
          cases ws with
          | nil => rw [List.nil_append, List.dropWhile_cons]; rfl
          | cons w ws' =>
            rw [List.cons_append, List.dropWhile_cons,
              pyIsSpace_not_ident (hws w (by simp))]
            rfl
        rw [h1, dropWhile_append_of_all hws, List.dropWhile_cons]
        rfl

/-- Counterexample to C8: the string `" a="` is an identifier preceded by
a leading space and followed by `=` — an instance of the claimed pattern
with surrounding whitespace — yet `is_config` rejects it, because the
anchored regex allows whitespace only between the identifier and the
`=`. -/
theorem is_config_leading_space_cex :
    is_config " a=".data = false ∧
    pyIsSpace ' ' = true ∧
    isIdentChar 'a' = true ∧
    " a=".data = [' '] ++ ['a'] ++ [] ++ '=' :: [] :=
  ⟨rfl, rfl, rfl, rfl⟩

end HParams
